import Mathlib

/-!
Verification of the SnowDesk forecast-intelligence core.

Shallow embedding of the JavaScript modules `src/lib/snowQuality.js`,
`src/lib/cache.js`, `src/lib/alerts.js` and `src/lib/dataLoader.js`.
JavaScript numbers are modelled as rationals (`ℚ`); a JavaScript value that
may be `undefined` or `NaN` is modelled as `Option ℚ` with `none` standing
for the non-numeric case (arithmetic propagates it, comparisons against it
are false, exactly as `undefined`/`NaN` behave under `*`, `-`, `+`, `<`, `>`).
Timestamps (`Date.now()`) are integers in milliseconds.
-/

/-- JavaScript multiplication: `NaN`/`undefined` operands give `NaN`. -/
def jsMul : Option ℚ → Option ℚ → Option ℚ
  | some a, some b => some (a * b)
  | _, _ => none

/-- JavaScript subtraction: `NaN`/`undefined` operands give `NaN`. -/
def jsSub : Option ℚ → Option ℚ → Option ℚ
  | some a, some b => some (a - b)
  | _, _ => none

/-- JavaScript addition (numeric case): `NaN`/`undefined` operands give `NaN`. -/
def jsAdd : Option ℚ → Option ℚ → Option ℚ
  | some a, some b => some (a + b)
  | _, _ => none

/-- JavaScript `>`: any comparison involving `NaN`/`undefined` is false. -/
def jsGT : Option ℚ → Option ℚ → Bool
  | some a, some b => decide (b < a)
  | _, _ => false

/-- JavaScript `<`: any comparison involving `NaN`/`undefined` is false. -/
def jsLT : Option ℚ → Option ℚ → Bool
  | some a, some b => decide (a < b)
  | _, _ => false

/-! ## snowQuality.js -/

/-- Result record of `getSnowQuality` (label, presentation metadata, priority). -/
structure QualityResult where
  label : String
  color : String
  bgColor : String
  emoji : String
  priority : ℕ
deriving DecidableEq

/-- The five numeric inputs of `getSnowQuality`. -/
structure SnowInput where
  temp_c : ℚ
  wind_kmh : ℚ
  snowfall_cm : ℚ
  snowAgeHours : ℚ
  humidity_pct : ℚ
deriving DecidableEq

/-- `getSnowQuality` from `src/lib/snowQuality.js`: ordered decision tree,
first matching branch wins. -/
def getSnowQuality (p : SnowInput) : QualityResult :=
  if p.snowfall_cm > mkRat 5 10 ∧ p.temp_c < -2 ∧ p.wind_kmh < 40 then
    ⟨"Powder", "#1E90FF", "#E8F4FD", "❄️", 1⟩
  else if p.snowfall_cm > mkRat 2 10 ∧ p.wind_kmh ≥ 40 then
    ⟨"Wind Affected", "#F97316", "#FEF3C7", "💨", 2⟩
  else if p.snowAgeHours ≤ 12 ∧ p.temp_c < -5 ∧ p.humidity_pct < 70 then
    ⟨"Packed Powder", "#38BDF8", "#F0F9FF", "🎿", 3⟩
  else if p.snowAgeHours ≤ 24 ∧ p.temp_c ≥ -5 ∧ p.temp_c < 2 then
    ⟨"Soft", "#4ADE80", "#F0FDF4", "✨", 4⟩
  else if p.temp_c ≥ 2 then
    ⟨"Spring/Corn", "#FBBF24", "#FFFBEB", "☀️", 5⟩
  else if p.snowAgeHours > 24 ∧ p.temp_c < -2 then
    ⟨"Icy", "#EF4444", "#FEF2F2", "🧊", 6⟩
  else
    ⟨"Variable", "#9CA3AF", "#F9FAFB", "🌫️", 7⟩

/-- The descending loop `for (let i = currentHourIndex; i >= 0; i--)` of
`getSnowAgeHours`. An out-of-range access `hourlySnowfall[i]` yields
`undefined`, and `undefined > 0.1` is false, which `jsGT` on `List.get?`
reproduces. -/
def snowAgeLoop (hourlySnowfall : List ℚ) (currentHourIndex : ℕ) : ℕ → ℕ
  | 0 =>
    if currentHourIndex - 0 > 72 then 72
    else if jsGT (hourlySnowfall.get? 0) (some (mkRat 1 10)) then currentHourIndex - 0
    else 72
  | i + 1 =>
    if currentHourIndex - (i + 1) > 72 then 72
    else if jsGT (hourlySnowfall.get? (i + 1)) (some (mkRat 1 10)) then currentHourIndex - (i + 1)
    else snowAgeLoop hourlySnowfall currentHourIndex i

/-- `getSnowAgeHours` from `src/lib/snowQuality.js`: hours since the last
hourly snowfall value `> 0.1`, scanning backward, capped at 72. -/
def getSnowAgeHours (hourlySnowfall : List ℚ) (currentHourIndex : ℕ) : ℕ :=
  snowAgeLoop hourlySnowfall currentHourIndex currentHourIndex

/-- A daily forecast entry as consumed by `getBestWindow`; a field is `none`
when it is absent (`undefined`) in the JavaScript object. -/
structure DailyEntry where
  time : String
  snowfall_sum : Option ℚ
  rain_sum : Option ℚ
  windspeed_10m_max : Option ℚ
  temperature_2m_max : Option ℚ
deriving DecidableEq

/-- One element of the `scored` array built by `getBestWindow`. -/
structure ScoredEntry where
  index : ℕ
  date : String
  score : Option ℚ
deriving DecidableEq

/-- The per-day score expression of `getBestWindow`, in JavaScript number
semantics: a missing `snowfall_sum` or `rain_sum` propagates `NaN`, while the
two comparison terms evaluate to 0 when their field is missing (comparisons
against `undefined` are false). -/
def bwScore (day : DailyEntry) : Option ℚ :=
  jsAdd
    (jsSub
      (jsSub (jsMul day.snowfall_sum (some 3)) (jsMul day.rain_sum (some 5)))
      (some (if jsGT day.windspeed_10m_max (some 50) then 10 else 0)))
    (some (if jsLT day.temperature_2m_max (some 0) then 5 else 0))

/-- `dailyData.map((day, i) => ({index: i, date: day.time, score: ...}))`,
carrying the running index. -/
def scoredFrom (i : ℕ) : List DailyEntry → List ScoredEntry
  | [] => []
  | day :: rest => ⟨i, day.time, bwScore day⟩ :: scoredFrom (i + 1) rest

/-- The sort comparator `(a, b) => b.score - a.score`, read as "`a` sorts
strictly before `b`": true iff `b.score - a.score < 0`, i.e. `b.score <
a.score`; when either score is `NaN` the comparator returns `NaN`, which the
sort treats as 0 (equal), so `bwBefore` is false. -/
def bwBefore (a b : ScoredEntry) : Bool :=
  jsLT b.score a.score

/-- Insert into an already-sorted (descending) list, after every element it
does not sort strictly before — the stable position, as mandated for
`Array.prototype.sort`. -/
def insertDesc (x : ScoredEntry) : List ScoredEntry → List ScoredEntry
  | [] => [x]
  | y :: ys => if bwBefore x y then x :: y :: ys else y :: insertDesc x ys

/-- Stable sort with comparator `(a, b) => b.score - a.score`: elements are
inserted left to right, so elements comparing equal keep their original
relative order. -/
def sortDesc (l : List ScoredEntry) : List ScoredEntry :=
  l.foldl (fun acc x => insertDesc x acc) []

/-- `getBestWindow` from `src/lib/snowQuality.js`: score every day, sort
descending by score, take element `[0]` (`none` on the empty array, where
`[0]` is `undefined`). -/
def getBestWindow (dailyData : List DailyEntry) : Option ScoredEntry :=
  (sortDesc (scoredFrom 0 dailyData)).head?

/-! ## cache.js -/

/-- A `forecastCache` entry: `{ data, timestamp }`. -/
structure CacheEntry (α : Type) where
  data : α
  timestamp : ℤ
deriving DecidableEq

/-- `CACHE_TTL_MS = 60 * 60 * 1000` (1 hour). -/
def CACHE_TTL_MS : ℤ := 60 * 60 * 1000

/-- The `forecastCache` map, as an association list; `Map.get` is the first
binding for the key and `Map.set` prepends a binding that shadows older ones,
which is observationally the overwrite the JavaScript `Map` performs. -/
def ForecastCache (α : Type) : Type := List (String × CacheEntry α)

/-- `forecastCache.get(resortId)`. -/
def cacheGet (c : ForecastCache α) (resortId : String) : Option (CacheEntry α) :=
  List.lookup resortId c

/-- `forecastCache.set(resortId, e)`. -/
def cacheSet (c : ForecastCache α) (resortId : String) (e : CacheEntry α) :
    ForecastCache α :=
  (resortId, e) :: c

/-- `getCachedForecast` from `src/lib/cache.js`. The async `fetchFn` is
modelled by the outcome of awaiting it (`Except ε α`); the call returns the
produced value (or the propagated rejection), the updated cache state and
whether `fetchFn` was invoked. `now` stands for `Date.now()`. -/
def getCachedForecast (resortId : String) (fetchFn : Except ε α)
    (cache : ForecastCache α) (now : ℤ) :
    Except ε α × ForecastCache α × Bool :=
  match cacheGet cache resortId with
  | some cached =>
    if now - cached.timestamp < CACHE_TTL_MS then (Except.ok cached.data, cache, false)
    else
      match fetchFn with
      | Except.ok data => (Except.ok data, cacheSet cache resortId ⟨data, now⟩, true)
      | Except.error e => (Except.error e, cache, true)
  | none =>
    match fetchFn with
    | Except.ok data => (Except.ok data, cacheSet cache resortId ⟨data, now⟩, true)
    | Except.error e => (Except.error e, cache, true)

/-! ## alerts.js -/

/-- `ALERT_COOLDOWN_MS = 6 * 60 * 60 * 1000` (6 hours). -/
def ALERT_COOLDOWN_MS : ℤ := 6 * 60 * 60 * 1000

/-- A resort record (the fields the alert/loader code reads). -/
structure Resort where
  id : String
  name : String
  region : String
  tier : ℕ
deriving DecidableEq

/-- The `daily` block of a forecast as read by `checkPowderAlerts`
(`forecast.daily?.snowfall_sum` — either level may be absent). -/
structure Forecast where
  daily : Option (Option (List ℚ))
deriving DecidableEq

/-- `forecast.daily?.snowfall_sum?.slice(0, 2) ?? []`. -/
def next2Days (forecast : Forecast) : List ℚ :=
  ((forecast.daily.getD none).getD []).take 2

/-- The alert log, `resortId → last-fired timestamp`; `none` = no entry. -/
def AlertLog : Type := String → Option ℤ

/-- Observable outcome of a `checkPowderAlerts` run: the merged log, the ids
whose `new Notification(...)` construction succeeded, and the ids for which
`onAlertFired` was invoked. -/
structure AlertOutcome where
  updatedLog : AlertLog
  notified : List String
  callbackFired : List String

/-- Threshold resolution: `thresholds[id] !== undefined ? thresholds[id]
: (defaultThreshold ?? 15.24)`. -/
def resortThreshold (thresholds : String → Option ℚ) (defaultThreshold : Option ℚ)
    (id : String) : ℚ :=
  match thresholds id with
  | some t => t
  | none => defaultThreshold.getD (mkRat 1524 100)

/-- The body of the `for (const resort of resorts)` loop of
`checkPowderAlerts` for one resort. `notifThrows id` models "the
`Notification` constructor throws for this resort" (that throw is caught and
only suppresses the notification); `hasCallback` models whether an
`onAlertFired` function was supplied; `now` stands for `Date.now()`. The
cooldown test reads the *input* log (`alertLog[resort.id]`), as the source
does. -/
def alertStep (forecasts : String → Option Forecast) (thresholds : String → Option ℚ)
    (defaultThreshold : Option ℚ) (alertLog : AlertLog) (notifThrows : String → Bool)
    (hasCallback : Bool) (now : ℤ) (st : AlertOutcome) (resort : Resort) : AlertOutcome :=
  match forecasts resort.id with
  | none => st
  | some forecast =>
    match next2Days forecast with
    | [] => st
    | d :: ds =>
      if ds.foldl max d ≥ resortThreshold thresholds defaultThreshold resort.id ∧
          now - (alertLog resort.id).getD 0 > ALERT_COOLDOWN_MS then
        { updatedLog := fun k => if k = resort.id then some now else st.updatedLog k
          notified := st.notified ++ (if notifThrows resort.id then [] else [resort.id])
          callbackFired := st.callbackFired ++ (if hasCallback then [resort.id] else []) }
      else st

/-- `checkPowderAlerts` from `src/lib/alerts.js`. `granted` models
`('Notification' in globalThis) && Notification.permission === 'granted'`.
The notification payload text (`buildNotificationPayload`, cm→inch
formatting) is presentation data the claims never inspect; the outcome
records which resorts got a notification instead. -/
def checkPowderAlerts (granted : Bool) (resorts : List Resort)
    (forecasts : String → Option Forecast) (thresholds : String → Option ℚ)
    (defaultThreshold : Option ℚ) (alertLog : AlertLog) (notifThrows : String → Bool)
    (hasCallback : Bool) (now : ℤ) : AlertOutcome :=
  let init : AlertOutcome := ⟨alertLog, [], []⟩
  if granted then
    resorts.foldl
      (alertStep forecasts thresholds defaultThreshold alertLog notifThrows hasCallback now)
      init
  else init

/-! ## dataLoader.js -/

/-- `BATCH_SIZE = 10`. -/
def BATCH_SIZE : ℕ := 10

/-- `BATCH_DELAY_MS = 200`. -/
def BATCH_DELAY_MS : ℕ := 200

/-- Per-resort loading status set through `setLoadingState`. -/
inductive LoadStatus where
  | loading
  | done
  | error
deriving DecidableEq

/-- `loadSingleForecast` from `src/lib/dataLoader.js`, for one resort whose
fetch settles with `outcome`: the sequence of statuses it sets (always
`loading` first) and the data it delivers through `setForecast` (only on
success). The `catch` turns a rejection into the `error` status — the
function itself never rejects. -/
def loadSingleForecast (outcome : Except ε α) : List LoadStatus × Option α :=
  match outcome with
  | Except.ok data => ([LoadStatus.loading, LoadStatus.done], some data)
  | Except.error _ => ([LoadStatus.loading, LoadStatus.error], none)

/-- The batching loop of `loadTier1Forecasts`
(`for (let i = 0; i < tier1.length; i += BATCH_SIZE)`): the successive
`tier1.slice(i, i + BATCH_SIZE)` batches, each paired with whether a
`BATCH_DELAY_MS` pause follows it (`i + BATCH_SIZE < tier1.length`). -/
def batchLoop (tier1 : List Resort) : List (List Resort × Bool) :=
  if h : tier1 = [] then []
  else
    (tier1.take BATCH_SIZE, decide (BATCH_SIZE < tier1.length)) ::
      batchLoop (tier1.drop BATCH_SIZE)
termination_by tier1.length
decreasing_by
  simp only [List.length_drop, BATCH_SIZE]
  have : 0 < tier1.length := List.length_pos.mpr h
  omega

/-- Observable outcome of a `loadTier1Forecasts` call. -/
structure LoadCycle (α : Type) where
  batches : List (List Resort × Bool)
  perResort : Resort → List LoadStatus × Option α

/-- `loadTier1Forecasts` from `src/lib/dataLoader.js`: filter the tier-1
resorts, process them in batches of `BATCH_SIZE` with a `BATCH_DELAY_MS`
pause after every non-final batch; each resort in a batch goes through
`loadSingleForecast`, whose settled outcome is `fetch resort.id`. -/
def loadTier1Forecasts (resorts : List Resort) (fetch : String → Except ε α) :
    LoadCycle α :=
  let tier1 := resorts.filter (fun r => r.tier == 1)
  { batches := batchLoop tier1
    perResort := fun r => loadSingleForecast (fetch r.id) }

/-- The running "best so far" that the head of the stable descending sort
computes: fold keeping the current element unless the next sorts strictly
before it. -/
def bestFrom (x : ScoredEntry) (xs : List ScoredEntry) : ScoredEntry :=
  xs.foldl (fun b y => if bwBefore y b then y else b) x

/-- The value of the `getBestWindow` score when `snowfall_sum` and `rain_sum`
are numeric (an absent `windspeed_10m_max` or `temperature_2m_max` behaves
exactly like 0, since comparisons against `undefined` are false and
`0 > 50`, `0 < 0` are false too). -/
def scoreQ (d : DailyEntry) : ℚ :=
  d.snowfall_sum.getD 0 * 3 - d.rain_sum.getD 0 * 5
    - (if d.windspeed_10m_max.getD 0 > 50 then 10 else 0)
    + (if d.temperature_2m_max.getD 0 < 0 then 5 else 0)

/-- The firing condition of `checkPowderAlerts` for one resort: a forecast
is cached, its next-48h snowfall slice is non-empty, its maximum reaches the
resolved threshold, and the cooldown has elapsed since the logged last fire
(0 when absent). -/
def alertFires (forecasts : String → Option Forecast) (thresholds : String → Option ℚ)
    (defaultThreshold : Option ℚ) (alertLog : AlertLog) (now : ℤ) (r : Resort) : Prop :=
  ∃ fc d ds, forecasts r.id = some fc ∧ next2Days fc = d :: ds ∧
    ds.foldl max d ≥ resortThreshold thresholds defaultThreshold r.id ∧
    now - ((alertLog r.id).getD 0) > ALERT_COOLDOWN_MS

/-! ## Concrete fixtures for the alert scenarios (spec section 8) -/

def r1 : Resort := ⟨"r1", "Test Mountain", "Colorado", 1⟩

def r2 : Resort := ⟨"r2", "Second Peak", "Utah", 1⟩

/-- A forecast whose `daily.snowfall_sum` is `[20, 0]`. -/
def fc20 : Forecast := ⟨some (some [20, 0])⟩

def fcs1 : String → Option Forecast := fun id => if id = "r1" then some fc20 else none

def fcs12 : String → Option Forecast := fun id =>
  if id = "r1" then some fc20 else if id = "r2" then some fc20 else none

def thrNone : String → Option ℚ := fun _ => none

/-- A per-location override of 25.4 cm for `r1`. -/
def thrOverride : String → Option ℚ := fun id =>
  if id = "r1" then some (mkRat 254 10) else none

def tnow : ℤ := 1000000000000

/-- Last fired 1000 ms ago — inside the 6 h cooldown. -/
def logRecent : AlertLog := fun id => if id = "r1" then some (tnow - 1000) else none

/-- Last fired 7 h ago — cooldown elapsed. -/
def logStale : AlertLog := fun id => if id = "r1" then some (tnow - 25200000) else none

def logEmpty : AlertLog := fun _ => none

def noThrow : String → Bool := fun _ => false

/-! ## Constants written as `mkRat` equal their decimal source literals -/

theorem mkRat_half : (mkRat 5 10 : ℚ) = 0.5 := by norm_num [mkRat, Rat.normalize]

theorem mkRat_fifth : (mkRat 2 10 : ℚ) = 0.2 := by norm_num [mkRat, Rat.normalize]

theorem mkRat_tenth : (mkRat 1 10 : ℚ) = 0.1 := by norm_num [mkRat, Rat.normalize]

theorem mkRat_default_threshold : (mkRat 1524 100 : ℚ) = 15.24 := by
  norm_num [mkRat, Rat.normalize]

/-- C1: `getSnowQuality` returns the result of the first rule, in the fixed
order 1..7, whose predicate holds; every input yields one of the seven
labels, and an input satisfying both rule 1 and rule 3 yields rule 1's
label. -/
theorem getSnowQuality_first_rule_wins (p : SnowInput) :
    ((p.snowfall_cm > 0.5 ∧ p.temp_c < -2 ∧ p.wind_kmh < 40) →
        getSnowQuality p = ⟨"Powder", "#1E90FF", "#E8F4FD", "❄️", 1⟩) ∧
    (¬(p.snowfall_cm > 0.5 ∧ p.temp_c < -2 ∧ p.wind_kmh < 40) →
      (p.snowfall_cm > 0.2 ∧ p.wind_kmh ≥ 40) →
        getSnowQuality p = ⟨"Wind Affected", "#F97316", "#FEF3C7", "💨", 2⟩) ∧
    (¬(p.snowfall_cm > 0.5 ∧ p.temp_c < -2 ∧ p.wind_kmh < 40) →
      ¬(p.snowfall_cm > 0.2 ∧ p.wind_kmh ≥ 40) →
      (p.snowAgeHours ≤ 12 ∧ p.temp_c < -5 ∧ p.humidity_pct < 70) →
        getSnowQuality p = ⟨"Packed Powder", "#38BDF8", "#F0F9FF", "🎿", 3⟩) ∧
    (¬(p.snowfall_cm > 0.5 ∧ p.temp_c < -2 ∧ p.wind_kmh < 40) →
      ¬(p.snowfall_cm > 0.2 ∧ p.wind_kmh ≥ 40) →
      ¬(p.snowAgeHours ≤ 12 ∧ p.temp_c < -5 ∧ p.humidity_pct < 70) →
      (p.snowAgeHours ≤ 24 ∧ -5 ≤ p.temp_c ∧ p.temp_c < 2) →
        getSnowQuality p = ⟨"Soft", "#4ADE80", "#F0FDF4", "✨", 4⟩) ∧
    (¬(p.snowfall_cm > 0.5 ∧ p.temp_c < -2 ∧ p.wind_kmh < 40) →
      ¬(p.snowfall_cm > 0.2 ∧ p.wind_kmh ≥ 40) →
      ¬(p.snowAgeHours ≤ 12 ∧ p.temp_c < -5 ∧ p.humidity_pct < 70) →
      ¬(p.snowAgeHours ≤ 24 ∧ -5 ≤ p.temp_c ∧ p.temp_c < 2) →
      p.temp_c ≥ 2 →
        getSnowQuality p = ⟨"Spring/Corn", "#FBBF24", "#FFFBEB", "☀️", 5⟩) ∧
    (¬(p.snowfall_cm > 0.5 ∧ p.temp_c < -2 ∧ p.wind_kmh < 40) →
      ¬(p.snowfall_cm > 0.2 ∧ p.wind_kmh ≥ 40) →
      ¬(p.snowAgeHours ≤ 12 ∧ p.temp_c < -5 ∧ p.humidity_pct < 70) →
      ¬(p.snowAgeHours ≤ 24 ∧ -5 ≤ p.temp_c ∧ p.temp_c < 2) →
      ¬(p.temp_c ≥ 2) →
      (p.snowAgeHours > 24 ∧ p.temp_c < -2) →
        getSnowQuality p = ⟨"Icy", "#EF4444", "#FEF2F2", "🧊", 6⟩) ∧
    (¬(p.snowfall_cm > 0.5 ∧ p.temp_c < -2 ∧ p.wind_kmh < 40) →
      ¬(p.snowfall_cm > 0.2 ∧ p.wind_kmh ≥ 40) →
      ¬(p.snowAgeHours ≤ 12 ∧ p.temp_c < -5 ∧ p.humidity_pct < 70) →
      ¬(p.snowAgeHours ≤ 24 ∧ -5 ≤ p.temp_c ∧ p.temp_c < 2) →
      ¬(p.temp_c ≥ 2) →
      ¬(p.snowAgeHours > 24 ∧ p.temp_c < -2) →
        getSnowQuality p = ⟨"Variable", "#9CA3AF", "#F9FAFB", "🌫️", 7⟩) ∧
    ((getSnowQuality p).label ∈
      ["Powder", "Wind Affected", "Packed Powder", "Soft", "Spring/Corn", "Icy",
        "Variable"]) ∧
    ((p.snowfall_cm > 0.5 ∧ p.temp_c < -2 ∧ p.wind_kmh < 40) →
      (p.snowAgeHours ≤ 12 ∧ p.temp_c < -5 ∧ p.humidity_pct < 70) →
        getSnowQuality p = ⟨"Powder", "#1E90FF", "#E8F4FD", "❄️", 1⟩) := by
  simp only [getSnowQuality, mkRat_half, mkRat_fifth]
  have hc : ∀ a : ℚ, a ≥ -5 ↔ -5 ≤ a := fun a => Iff.rfl
  split_ifs with h1 h2 h3 h4 h5 h6 <;>
    refine ⟨?_, ?_, ?_, ?_, ?_, ?_, ?_, ?_, ?_⟩ <;> intros <;> simp_all

/-- Witness for C1 at the repository test's Powder acceptance input. -/
theorem getSnowQuality_first_rule_wins_witness :
    getSnowQuality ⟨-8, 20, 1.2, 1, 75⟩ =
      ⟨"Powder", "#1E90FF", "#E8F4FD", "❄️", 1⟩ :=
  (getSnowQuality_first_rule_wins ⟨-8, 20, 1.2, 1, 75⟩).1 (by norm_num)

/-! ## Helper lemmas: the backward scan of `getSnowAgeHours` -/

theorem jsGT_some_true_iff (o : Option ℚ) (q : ℚ) :
    jsGT o (some q) = true ↔ ∃ v, o = some v ∧ q < v := by
  cases o <;> simp [jsGT]

theorem jsGT_some_false_iff (o : Option ℚ) (q : ℚ) :
    jsGT o (some q) = false ↔ ∀ v, o = some v → ¬ q < v := by
  cases o <;> simp [jsGT]

theorem snowAgeLoop_le (hs : List ℚ) (idx i : ℕ) : snowAgeLoop hs idx i ≤ 72 := by
  induction i with
  | zero =>
    simp only [snowAgeLoop]
    split_ifs <;> omega
  | succ n ih =>
    simp only [snowAgeLoop]
    split_ifs with hcap hq
    · exact le_refl 72
    · omega
    · exact ih

theorem snowAgeLoop_none (hs : List ℚ) (idx : ℕ) :
    ∀ i, (∀ j, j ≤ i → idx - j ≤ 72 → jsGT (hs.get? j) (some (mkRat 1 10)) = false) →
      snowAgeLoop hs idx i = 72 := by
  intro i
  induction i with
  | zero =>
    intro hnone
    simp only [snowAgeLoop]
    split_ifs with hcap hq
    · rfl
    · rw [hnone 0 (le_refl 0) (by omega)] at hq
      exact absurd hq (by simp)
    · rfl
  | succ n ih =>
    intro hnone
    simp only [snowAgeLoop]
    split_ifs with hcap hq
    · rfl
    · rw [hnone (n + 1) (le_refl _) (by omega)] at hq
      exact absurd hq (by simp)
    · exact ih fun j hj hc => hnone j (le_trans hj (Nat.le_succ n)) hc

theorem snowAgeLoop_found (hs : List ℚ) (idx i : ℕ)
    (hcap : idx - i ≤ 72) (hq : jsGT (hs.get? i) (some (mkRat 1 10)) = true) :
    ∀ i', i ≤ i' →
      (∀ j, i < j → j ≤ i' → jsGT (hs.get? j) (some (mkRat 1 10)) = false) →
      snowAgeLoop hs idx i' = idx - i := by
  intro i'
  induction i' with
  | zero =>
    intro hle hnone
    have hi : i = 0 := Nat.le_zero.mp hle
    subst hi
    simp only [snowAgeLoop]
    split_ifs with h1
    · omega
    · rfl
  | succ n ih =>
    intro hle hnone
    simp only [snowAgeLoop]
    rcases Nat.eq_or_lt_of_le hle with heq | hlt
    · subst heq
      split_ifs with h1
      · omega
      · rfl
    · have hn : i ≤ n := Nat.lt_succ_iff.mp hlt
      split_ifs with h1 h2
      · omega
      · rw [hnone (n + 1) hlt (le_refl _)] at h2
        exact absurd h2 (by simp)
      · exact ih hn fun j hj hj2 => hnone j hj (le_trans hj2 (Nat.le_succ n))

/-- C3: `getSnowAgeHours` returns the backward offset of the most recent
qualifying hour (`> 0.1` cm) when one lies within the 72-hour lookback,
returns 0 when the current hour itself qualifies, returns 72 when no
qualifying value exists in the lookback (or the series is exhausted first),
always lies in `[0, 72]`; the three spec examples hold, including the
length-74 series where the true distance 73 is capped to 72. -/
theorem getSnowAgeHours_spec :
    (∀ (hs : List ℚ) (idx i : ℕ), i ≤ idx →
      (∃ v, hs.get? i = some v ∧ (0.1 : ℚ) < v) →
      idx - i ≤ 72 →
      (∀ j, i < j → j ≤ idx → ∀ v, hs.get? j = some v → ¬ (0.1 : ℚ) < v) →
      getSnowAgeHours hs idx = idx - i) ∧
    (∀ (hs : List ℚ) (idx : ℕ),
      (∀ j, j ≤ idx → idx - j ≤ 72 → ∀ v, hs.get? j = some v → ¬ (0.1 : ℚ) < v) →
      getSnowAgeHours hs idx = 72) ∧
    (∀ (hs : List ℚ) (idx : ℕ), getSnowAgeHours hs idx ≤ 72) ∧
    (∀ (hs : List ℚ) (idx : ℕ) (v : ℚ), hs.get? idx = some v → (0.1 : ℚ) < v →
      getSnowAgeHours hs idx = 0) ∧
    (getSnowAgeHours (List.replicate 100 0) 80 = 72) ∧
    (getSnowAgeHours (mkRat 15 10 :: List.replicate 73 0) 73 = 72) := by
  have hfound : ∀ (hs : List ℚ) (idx i : ℕ), i ≤ idx →
      (∃ v, hs.get? i = some v ∧ (0.1 : ℚ) < v) →
      idx - i ≤ 72 →
      (∀ j, i < j → j ≤ idx → ∀ v, hs.get? j = some v → ¬ (0.1 : ℚ) < v) →
      getSnowAgeHours hs idx = idx - i := by
    intro hs idx i hle hex hcap hnone
    have hq : jsGT (hs.get? i) (some (mkRat 1 10)) = true := by
      rw [jsGT_some_true_iff, mkRat_tenth]
      exact hex
    exact snowAgeLoop_found hs idx i hcap hq idx hle fun j hj hj2 => by
      rw [jsGT_some_false_iff, mkRat_tenth]
      exact hnone j hj hj2
  have hnone72 : ∀ (hs : List ℚ) (idx : ℕ),
      (∀ j, j ≤ idx → idx - j ≤ 72 → ∀ v, hs.get? j = some v → ¬ (0.1 : ℚ) < v) →
      getSnowAgeHours hs idx = 72 := by
    intro hs idx hnone
    exact snowAgeLoop_none hs idx idx fun j hj hc => by
      rw [jsGT_some_false_iff, mkRat_tenth]
      exact hnone j hj hc
  refine ⟨hfound, hnone72, fun hs idx => snowAgeLoop_le hs idx idx, ?_, ?_, ?_⟩
  · intro hs idx v hv hgt
    have := hfound hs idx idx (le_refl idx) ⟨v, hv, hgt⟩ (by omega)
      (fun j hj hj2 => absurd (lt_of_lt_of_le hj hj2) (lt_irrefl idx))
    simpa using this
  · refine hnone72 (List.replicate 100 0) 80 ?_
    intro j hj hc v hv
    have hv0 : v = 0 := List.eq_of_mem_replicate (List.get?_mem hv)
    subst hv0
    norm_num
  · refine hnone72 (mkRat 15 10 :: List.replicate 73 0) 73 ?_
    intro j hj hc v hv
    match j with
    | 0 => omega
    | m + 1 =>
      rw [List.get?_cons_succ] at hv
      have hv0 : v = 0 := List.eq_of_mem_replicate (List.get?_mem hv)
      subst hv0
      norm_num

/-- Witness for C3: a series whose value at the current index is 0.2 gives
age 0, via the fourth conjunct of the theorem. -/
theorem getSnowAgeHours_spec_witness :
    getSnowAgeHours [mkRat 2 10] 0 = 0 :=
  getSnowAgeHours_spec.2.2.2.1 [mkRat 2 10] 0 (mkRat 2 10) rfl
    (by rw [mkRat_fifth]; norm_num)

/-! ## Helper lemmas: the stable descending sort of `getBestWindow` -/

theorem bwBefore_self (x : ScoredEntry) : bwBefore x x = false := by
  cases hx : x.score <;> simp [bwBefore, jsLT, hx]

theorem insertDesc_head_of_head (y b : ScoredEntry) (acc : List ScoredEntry)
    (hb : acc.head? = some b) :
    (insertDesc y acc).head? = some (if bwBefore y b then y else b) := by
  cases acc with
  | nil => simp at hb
  | cons c cs =>
    simp only [List.head?_cons, Option.some.injEq] at hb
    subst hb
    simp only [insertDesc]
    split_ifs <;> simp

theorem foldl_insertDesc_head (l : List ScoredEntry) :
    ∀ (acc : List ScoredEntry) (b : ScoredEntry), acc.head? = some b →
      (l.foldl (fun a y => insertDesc y a) acc).head? = some (bestFrom b l) := by
  induction l with
  | nil =>
    intro acc b hb
    simpa [bestFrom] using hb
  | cons y ys ih =>
    intro acc b hb
    simp only [List.foldl_cons]
    have hstep := insertDesc_head_of_head y b acc hb
    rw [ih (insertDesc y acc) (if bwBefore y b then y else b) hstep]
    rfl

theorem sortDesc_head_cons (x : ScoredEntry) (xs : List ScoredEntry) :
    (sortDesc (x :: xs)).head? = some (bestFrom x xs) := by
  unfold sortDesc
  simp only [List.foldl_cons]
  exact foldl_insertDesc_head xs (insertDesc x []) x rfl

theorem bestFrom_cons (x z : ScoredEntry) (zs : List ScoredEntry) :
    bestFrom x (z :: zs) = bestFrom (if bwBefore z x then z else x) zs := rfl

theorem bwBefore_eq_decide (a b : ScoredEntry) (va vb : ℚ)
    (ha : a.score = some va) (hb : b.score = some vb) :
    bwBefore a b = decide (vb < va) := by
  simp [bwBefore, jsLT, ha, hb]

/-- The "best so far" fold keeps a maximal-score element and, among equal
maximal scores, the one with the least `index`, provided all scores are
numeric and indices strictly increase along the list. -/
theorem bestFrom_spec (xs : List ScoredEntry) :
    ∀ x : ScoredEntry,
      (∀ y ∈ x :: xs, (y.score).isSome = true) →
      (x :: xs).Pairwise (fun a b => a.index < b.index) →
      bestFrom x xs ∈ x :: xs ∧
      (∀ y ∈ x :: xs, bwBefore y (bestFrom x xs) = false) ∧
      (∀ y ∈ x :: xs, y.score = (bestFrom x xs).score → (bestFrom x xs).index ≤ y.index) := by
  induction xs with
  | nil =>
    intro x _ _
    refine ⟨List.mem_singleton.mpr rfl, ?_, ?_⟩
    · intro y hy
      rw [List.mem_singleton] at hy
      rw [hy]
      exact bwBefore_self (bestFrom x [])
    · intro y hy _
      rw [List.mem_singleton] at hy
      rw [hy]
      exact le_refl _
  | cons z zs ih =>
    intro x hsome hpw
    obtain ⟨vx, hvx⟩ := Option.isSome_iff_exists.mp (hsome x (by simp))
    obtain ⟨vz, hvz⟩ := Option.isSome_iff_exists.mp (hsome z (by simp))
    rw [List.pairwise_cons] at hpw
    obtain ⟨hxlt, hpwz⟩ := hpw
    rw [List.pairwise_cons] at hpwz
    obtain ⟨hzlt, hpwzs⟩ := hpwz
    by_cases hzx : bwBefore z x = true
    · -- first comparison: z strictly beats x, so x is dropped and z carries on
      have hvxz : vx < vz := by
        rw [bwBefore_eq_decide z x vz vx hvz hvx, decide_eq_true_eq] at hzx
        exact hzx
      have hstep : bestFrom x (z :: zs) = bestFrom z zs := by
        rw [bestFrom_cons, if_pos hzx]
      have hsome' : ∀ y ∈ z :: zs, (y.score).isSome = true := by
        intro y hy
        exact hsome y (by simp [List.mem_cons.mp hy])
      have hpw' : (z :: zs).Pairwise (fun a b => a.index < b.index) := by
        rw [List.pairwise_cons]
        exact ⟨hzlt, hpwzs⟩
      obtain ⟨hmem, hnb, htie⟩ := ih z hsome' hpw'
      rw [hstep]
      obtain ⟨vr, hvr⟩ := Option.isSome_iff_exists.mp (hsome' _ hmem)
      have hzr : ¬ vr < vz := by
        have hz := hnb z (List.mem_cons_self z zs)
        rw [bwBefore_eq_decide z (bestFrom z zs) vz vr hvz hvr,
          decide_eq_false_iff_not] at hz
        exact hz
      refine ⟨List.mem_cons_of_mem x hmem, ?_, ?_⟩
      · intro y hy
        rcases List.mem_cons.mp hy with hyx | hyzz
        · rw [hyx]
          rw [bwBefore_eq_decide x (bestFrom z zs) vx vr hvx hvr,
            decide_eq_false_iff_not]
          intro hcon
          exact hzr (lt_trans hcon hvxz)
        · exact hnb y hyzz
      · intro y hy heq
        rcases List.mem_cons.mp hy with hyx | hyzz
        · rw [hyx] at heq
          rw [hvx, hvr] at heq
          have hveq : vx = vr := Option.some.inj heq
          exact absurd hvxz (by rw [hveq]; exact fun hc => hzr hc)
        · exact htie y hyzz heq
    · -- first comparison: z does not strictly beat x, so z is dropped
      have hzx' : bwBefore z x = false := Bool.not_eq_true _ ▸ Bool.eq_false_iff.mpr hzx
      have hvzx : ¬ vx < vz := by
        rw [bwBefore_eq_decide z x vz vx hvz hvx, decide_eq_false_iff_not] at hzx'
        exact hzx'
      have hstep : bestFrom x (z :: zs) = bestFrom x zs := by
        rw [bestFrom_cons, if_neg (by simp [hzx'])]
      have hsome' : ∀ y ∈ x :: zs, (y.score).isSome = true := by
        intro y hy
        rcases List.mem_cons.mp hy with hyx | hyzs
        · exact hsome y (by simp [hyx])
        · exact hsome y (by simp [hyzs])
      have hpw' : (x :: zs).Pairwise (fun a b => a.index < b.index) := by
        rw [List.pairwise_cons]
        exact ⟨fun b hb => hxlt b (List.mem_cons_of_mem z hb), hpwzs⟩
      obtain ⟨hmem, hnb, htie⟩ := ih x hsome' hpw'
      rw [hstep]
      obtain ⟨vr, hvr⟩ := Option.isSome_iff_exists.mp (hsome' _ hmem)
      have hxr : ¬ vr < vx := by
        have hx := hnb x (List.mem_cons_self x zs)
        rw [bwBefore_eq_decide x (bestFrom x zs) vx vr hvx hvr,
          decide_eq_false_iff_not] at hx
        exact hx
      have hmemfull : bestFrom x zs ∈ x :: z :: zs := by
        rcases List.mem_cons.mp hmem with hc | hc
        · rw [hc]
          exact List.mem_cons_self x (z :: zs)
        · exact List.mem_cons_of_mem x (List.mem_cons_of_mem z hc)
      refine ⟨hmemfull, ?_, ?_⟩
      · intro y hy
        rcases List.mem_cons.mp hy with hyx | hyzz
        · rw [hyx]
          exact hnb x (List.mem_cons_self x zs)
        · rcases List.mem_cons.mp hyzz with hyz | hyzs
          · rw [hyz]
            rw [bwBefore_eq_decide z (bestFrom x zs) vz vr hvz hvr,
              decide_eq_false_iff_not]
            intro hcon
            exact hvzx (lt_of_le_of_lt (le_of_not_lt hxr) hcon)
          · exact hnb y (List.mem_cons_of_mem x hyzs)
      · intro y hy heq
        rcases List.mem_cons.mp hy with hyx | hyzz
        · rw [hyx] at heq ⊢
          exact htie x (List.mem_cons_self x zs) heq
        · rcases List.mem_cons.mp hyzz with hyz | hyzs
          · rw [hyz] at heq ⊢
            rw [hvz, hvr] at heq
            have hveq : vz = vr := Option.some.inj heq
            have hxeq : x.score = (bestFrom x zs).score := by
              rw [hvx, hvr]
              have h1 : vz ≤ vx := le_of_not_lt hvzx
              have h2 : vx ≤ vr := le_of_not_lt hxr
              have hv : vx = vr := le_antisymm h2 (hveq ▸ h1)
              rw [hv]
            have hrx := htie x (List.mem_cons_self x zs) hxeq
            exact le_trans hrx (le_of_lt (hxlt z (List.mem_cons_self z zs)))
          · exact htie y (List.mem_cons_of_mem x hyzs) heq

theorem scoredFrom_mem_iff (l : List DailyEntry) :
    ∀ (i : ℕ) (y : ScoredEntry),
      y ∈ scoredFrom i l ↔
        ∃ k, ∃ hk : k < l.length,
          y = ⟨i + k, (l.get ⟨k, hk⟩).time, bwScore (l.get ⟨k, hk⟩)⟩ := by
  induction l with
  | nil =>
    intro i y
    simp [scoredFrom]
  | cons d rest ih =>
    intro i y
    simp only [scoredFrom, List.mem_cons, ih (i + 1)]
    constructor
    · rintro (rfl | ⟨k, hk, rfl⟩)
      · exact ⟨0, Nat.succ_pos _, rfl⟩
      · refine ⟨k + 1, Nat.succ_lt_succ hk, ?_⟩
        have harith : i + (k + 1) = i + 1 + k := by omega
        rw [harith]
        rfl
    · rintro ⟨k, hk, rfl⟩
      match k with
      | 0 => exact Or.inl rfl
      | k + 1 =>
        refine Or.inr ⟨k, Nat.lt_of_succ_lt_succ hk, ?_⟩
        have harith : i + (k + 1) = i + 1 + k := by omega
        rw [harith]
        rfl

theorem scoredFrom_zero_mem_iff (l : List DailyEntry) (y : ScoredEntry) :
    y ∈ scoredFrom 0 l ↔
      ∃ k, ∃ hk : k < l.length,
        y = ⟨k, (l.get ⟨k, hk⟩).time, bwScore (l.get ⟨k, hk⟩)⟩ := by
  rw [scoredFrom_mem_iff]
  constructor
  · rintro ⟨k, hk, rfl⟩
    exact ⟨k, hk, by rw [Nat.zero_add]⟩
  · rintro ⟨k, hk, rfl⟩
    exact ⟨k, hk, by rw [Nat.zero_add]⟩

theorem scoredFrom_index_ge (l : List DailyEntry) :
    ∀ (i : ℕ) (y : ScoredEntry), y ∈ scoredFrom i l → i ≤ y.index := by
  induction l with
  | nil =>
    intro i y hy
    simp [scoredFrom] at hy
  | cons d rest ih =>
    intro i y hy
    rcases List.mem_cons.mp hy with hyd | hyr
    · rw [hyd]
    · exact le_trans (Nat.le_succ i) (ih (i + 1) y hyr)

theorem scoredFrom_pairwise (l : List DailyEntry) :
    ∀ i : ℕ, (scoredFrom i l).Pairwise (fun a b => a.index < b.index) := by
  induction l with
  | nil =>
    intro i
    simp [scoredFrom]
  | cons d rest ih =>
    intro i
    simp only [scoredFrom]
    rw [List.pairwise_cons]
    refine ⟨?_, ih (i + 1)⟩
    intro b hb
    exact lt_of_lt_of_le (Nat.lt_succ_self i) (scoredFrom_index_ge rest (i + 1) b hb)

theorem bwScore_eq_scoreQ (d : DailyEntry)
    (hs : (d.snowfall_sum).isSome = true) (hr : (d.rain_sum).isSome = true) :
    bwScore d = some (scoreQ d) := by
  obtain ⟨s, hsv⟩ := Option.isSome_iff_exists.mp hs
  obtain ⟨r, hrv⟩ := Option.isSome_iff_exists.mp hr
  cases hw : d.windspeed_10m_max <;> cases ht : d.temperature_2m_max <;>
    simp [bwScore, scoreQ, hsv, hrv, hw, ht, jsMul, jsSub, jsAdd, jsGT, jsLT] <;>
    norm_num

/-- C4: on a non-empty list of numeric daily entries, `getBestWindow`
returns the index, date and score of the entry maximizing
`snow*3 - rain*5 - (wind>50 ? 10 : 0) + (tempMax<0 ? 5 : 0)`, ties broken
by the earliest index; in particular day A `{snow 20, rain 0, wind 20,
tempMax -8}` scores 65, day B `{snow 2, rain 0, wind 30, tempMax -5}`
scores 11, and A is selected. -/
theorem getBestWindow_selects_max :
    (∀ l : List DailyEntry, l ≠ [] →
      (∀ d ∈ l, (d.snowfall_sum).isSome = true ∧ (d.rain_sum).isSome = true ∧
        (d.windspeed_10m_max).isSome = true ∧ (d.temperature_2m_max).isSome = true) →
      ∃ r, getBestWindow l = some r ∧
        ∃ hk : r.index < l.length,
          r.date = (l.get ⟨r.index, hk⟩).time ∧
          r.score = some (scoreQ (l.get ⟨r.index, hk⟩)) ∧
          (∀ j, ∀ hj : j < l.length,
            scoreQ (l.get ⟨j, hj⟩) ≤ scoreQ (l.get ⟨r.index, hk⟩)) ∧
          (∀ j, ∀ hj : j < l.length,
            scoreQ (l.get ⟨j, hj⟩) = scoreQ (l.get ⟨r.index, hk⟩) → r.index ≤ j)) ∧
    getBestWindow
        [⟨"dayA", some 20, some 0, some 20, some (-8)⟩,
          ⟨"dayB", some 2, some 0, some 30, some (-5)⟩] =
      some ⟨0, "dayA", some 65⟩ := by
  constructor
  · intro l hne hwf
    have hscored : ∀ y ∈ scoredFrom 0 l, ∃ k, ∃ hk : k < l.length,
        y = ⟨k, (l.get ⟨k, hk⟩).time, bwScore (l.get ⟨k, hk⟩)⟩ :=
      fun y hy => (scoredFrom_zero_mem_iff l y).mp hy
    have hsome : ∀ y ∈ scoredFrom 0 l, (y.score).isSome = true := by
      intro y hy
      obtain ⟨k, hk, rfl⟩ := hscored y hy
      have hd := hwf (l.get ⟨k, hk⟩) (l.get_mem k hk)
      rw [show (ScoredEntry.mk k (l.get ⟨k, hk⟩).time (bwScore (l.get ⟨k, hk⟩))).score
          = bwScore (l.get ⟨k, hk⟩) from rfl,
        bwScore_eq_scoreQ _ hd.1 hd.2.1]
      rfl
    cases hl : scoredFrom 0 l with
    | nil =>
      exfalso
      cases l with
      | nil => exact hne rfl
      | cons d ds => simp [scoredFrom] at hl
    | cons sc0 rest =>
      have hbw : getBestWindow l = some (bestFrom sc0 rest) := by
        unfold getBestWindow
        rw [hl, sortDesc_head_cons]
      rw [hl] at hsome
      have hpw : (sc0 :: rest).Pairwise (fun a b => a.index < b.index) := by
        rw [← hl]
        exact scoredFrom_pairwise l 0
      obtain ⟨hmem, hnb, htie⟩ := bestFrom_spec rest sc0 hsome hpw
      set r := bestFrom sc0 rest with hrdef
      obtain ⟨k, hk, hreq⟩ := hscored r (hl ▸ hmem)
      have hwfk := hwf (l.get ⟨k, hk⟩) (l.get_mem k hk)
      have hrscore : r.score = some (scoreQ (l.get ⟨k, hk⟩)) := by
        rw [hreq]
        exact bwScore_eq_scoreQ _ hwfk.1 hwfk.2.1
      have hridx : r.index = k := by rw [hreq]
      have hk2 : r.index < l.length := by rw [hridx]; exact hk
      have hget : l.get ⟨r.index, hk2⟩ = l.get ⟨k, hk⟩ := by
        congr 1
        exact Fin.ext hridx
      refine ⟨r, hbw, hk2, ?_, ?_, ?_, ?_⟩
      · rw [hget]
        exact congrArg ScoredEntry.date hreq
      · rw [hget]
        exact hrscore
      · intro j hj
        have hmemj : (⟨j, (l.get ⟨j, hj⟩).time, bwScore (l.get ⟨j, hj⟩)⟩ : ScoredEntry)
            ∈ sc0 :: rest := by
          rw [← hl]
          exact (scoredFrom_zero_mem_iff l _).mpr ⟨j, hj, rfl⟩
        have hnbj := hnb _ hmemj
        have hwfj := hwf (l.get ⟨j, hj⟩) (l.get_mem j hj)
        have hjscore : bwScore (l.get ⟨j, hj⟩) = some (scoreQ (l.get ⟨j, hj⟩)) :=
          bwScore_eq_scoreQ _ hwfj.1 hwfj.2.1
        rw [bwBefore_eq_decide _ _ (scoreQ (l.get ⟨j, hj⟩)) (scoreQ (l.get ⟨k, hk⟩))
            hjscore hrscore, decide_eq_false_iff_not] at hnbj
        rw [hget]
        exact le_of_not_lt hnbj
      · intro j hj heq
        have hmemj : (⟨j, (l.get ⟨j, hj⟩).time, bwScore (l.get ⟨j, hj⟩)⟩ : ScoredEntry)
            ∈ sc0 :: rest := by
          rw [← hl]
          exact (scoredFrom_zero_mem_iff l _).mpr ⟨j, hj, rfl⟩
        have hwfj := hwf (l.get ⟨j, hj⟩) (l.get_mem j hj)
        have hjscore : bwScore (l.get ⟨j, hj⟩) = some (scoreQ (l.get ⟨j, hj⟩)) :=
          bwScore_eq_scoreQ _ hwfj.1 hwfj.2.1
        rw [hget] at heq
        have htiej := htie _ hmemj
        rw [show (ScoredEntry.mk j (l.get ⟨j, hj⟩).time (bwScore (l.get ⟨j, hj⟩))).score
            = bwScore (l.get ⟨j, hj⟩) from rfl, hjscore, hrscore] at htiej
        exact htiej (by rw [heq])
  · norm_num [getBestWindow, scoredFrom, sortDesc, insertDesc, bwBefore, bwScore,
      jsLT, jsMul, jsSub, jsAdd, jsGT]

/-- Witness for C4: the general part applied to a concrete singleton list. -/
theorem getBestWindow_selects_max_witness :
    ∃ r, getBestWindow [⟨"d0", some 1, some 0, some 0, some 0⟩] = some r ∧
      ∃ hk : r.index < 1,
        r.date = "d0" ∧ r.score = some 3 := by
  obtain ⟨r, hbw, hk, hdate, hscore, _, _⟩ :=
    getBestWindow_selects_max.1 [⟨"d0", some 1, some 0, some 0, some 0⟩]
      (by simp) (by simp)
  have h0 : (⟨r.index, hk⟩ : Fin 1) = ⟨0, Nat.one_pos⟩ :=
    Fin.ext (Nat.lt_one_iff.mp hk)
  rw [h0] at hdate hscore
  refine ⟨r, hbw, hk, by simpa using hdate, ?_⟩
  rw [hscore]
  norm_num [scoreQ]

/-- C5: a call within the TTL of a stored fetch returns the cached value
without invoking `fetchFn` (so two same-key calls inside the TTL window
invoke it exactly once); with no entry, or an entry aged ≥ 1 hour, the call
invokes `fetchFn`, stores its result with the current timestamp, and returns
it. -/
theorem getCachedForecast_ttl :
    (∀ (α ε : Type) (c : ForecastCache α) (key : String) (en : CacheEntry α)
        (f : Except ε α) (now : ℤ),
      cacheGet c key = some en → now - en.timestamp < CACHE_TTL_MS →
        getCachedForecast key f c now = (Except.ok en.data, c, false)) ∧
    (∀ (α ε : Type) (c : ForecastCache α) (key : String) (v : α) (now : ℤ),
      cacheGet c key = none →
        getCachedForecast key (Except.ok v : Except ε α) c now =
          (Except.ok v, cacheSet c key ⟨v, now⟩, true)) ∧
    (∀ (α ε : Type) (c : ForecastCache α) (key : String) (en : CacheEntry α)
        (v : α) (now : ℤ),
      cacheGet c key = some en → now - en.timestamp ≥ CACHE_TTL_MS →
        getCachedForecast key (Except.ok v : Except ε α) c now =
          (Except.ok v, cacheSet c key ⟨v, now⟩, true)) ∧
    (∀ (α ε : Type) (c : ForecastCache α) (key : String) (v : α)
        (f : Except ε α) (t0 t1 : ℤ),
      cacheGet c key = none → t1 - t0 < CACHE_TTL_MS →
        (getCachedForecast key (Except.ok v : Except ε α) c t0).2.2 = true ∧
        getCachedForecast key f
            ((getCachedForecast key (Except.ok v : Except ε α) c t0).2.1) t1 =
          (Except.ok v,
            (getCachedForecast key (Except.ok v : Except ε α) c t0).2.1, false)) := by
  have hfresh : ∀ (α ε : Type) (c : ForecastCache α) (key : String)
      (en : CacheEntry α) (f : Except ε α) (now : ℤ),
      cacheGet c key = some en → now - en.timestamp < CACHE_TTL_MS →
        getCachedForecast key f c now = (Except.ok en.data, c, false) := by
    intro α ε c key en f now hget hlt
    unfold getCachedForecast
    rw [hget]
    simp [hlt]
  have hmiss : ∀ (α ε : Type) (c : ForecastCache α) (key : String) (v : α) (now : ℤ),
      cacheGet c key = none →
        getCachedForecast key (Except.ok v : Except ε α) c now =
          (Except.ok v, cacheSet c key ⟨v, now⟩, true) := by
    intro α ε c key v now hget
    unfold getCachedForecast
    rw [hget]
  refine ⟨hfresh, hmiss, ?_, ?_⟩
  · intro α ε c key en v now hget hge
    unfold getCachedForecast
    rw [hget]
    simp [not_lt.mpr hge]
  · intro α ε c key v f t0 t1 hget hwin
    rw [hmiss α ε c key v t0 hget]
    refine ⟨rfl, ?_⟩
    have hget1 : cacheGet (cacheSet c key ⟨v, t0⟩) key = some ⟨v, t0⟩ := by
      simp [cacheGet, cacheSet, List.lookup]
    exact hfresh α ε _ key ⟨v, t0⟩ f t1 hget1 hwin

/-- Witness for C5: two calls at times 0 and 1000 on an initially empty
cache; the first invokes the fetch, the second returns the cached 42 without
invoking it. -/
theorem getCachedForecast_ttl_witness :
    (getCachedForecast "k" (Except.ok 42 : Except String ℕ) [] 0).2.2 = true ∧
    getCachedForecast "k" (Except.error "boom" : Except String ℕ)
        ((getCachedForecast "k" (Except.ok 42 : Except String ℕ) [] 0).2.1) 1000 =
      (Except.ok 42,
        (getCachedForecast "k" (Except.ok 42 : Except String ℕ) [] 0).2.1, false) :=
  getCachedForecast_ttl.2.2.2 ℕ String [] "k" 42 (Except.error "boom") 0 1000
    rfl (by decide)

/-- C9: a failing `fetchFn` propagates its failure, stores nothing, and the
next same-key call invokes `fetchFn` again from scratch. -/
theorem getCachedForecast_error_propagates :
    (∀ (α ε : Type) (c : ForecastCache α) (key : String) (e : ε) (now : ℤ),
      cacheGet c key = none →
        getCachedForecast key (Except.error e : Except ε α) c now =
          (Except.error e, c, true)) ∧
    (∀ (α ε : Type) (c : ForecastCache α) (key : String) (en : CacheEntry α)
        (e : ε) (now : ℤ),
      cacheGet c key = some en → now - en.timestamp ≥ CACHE_TTL_MS →
        getCachedForecast key (Except.error e : Except ε α) c now =
          (Except.error e, c, true)) ∧
    (∀ (α ε : Type) (c : ForecastCache α) (key : String) (e : ε)
        (f : Except ε α) (t0 t1 : ℤ),
      cacheGet c key = none →
        (getCachedForecast key f
            ((getCachedForecast key (Except.error e : Except ε α) c t0).2.1)
            t1).2.2 = true) := by
  have hmiss : ∀ (α ε : Type) (c : ForecastCache α) (key : String) (e : ε) (now : ℤ),
      cacheGet c key = none →
        getCachedForecast key (Except.error e : Except ε α) c now =
          (Except.error e, c, true) := by
    intro α ε c key e now hget
    unfold getCachedForecast
    rw [hget]
  refine ⟨hmiss, ?_, ?_⟩
  · intro α ε c key en e now hget hge
    unfold getCachedForecast
    rw [hget]
    simp [not_lt.mpr hge]
  · intro α ε c key e f t0 t1 hget
    rw [hmiss α ε c key e t0 hget]
    unfold getCachedForecast
    rw [hget]
    cases f <;> rfl

/-- Witness for C9: on an empty cache the failure comes back, the cache
stays empty, and a retry invokes the fetch again. -/
theorem getCachedForecast_error_propagates_witness :
    getCachedForecast "k" (Except.error "boom" : Except String ℕ) [] 0 =
      (Except.error "boom", [], true) ∧
    (getCachedForecast "k" (Except.ok 7 : Except String ℕ)
        ((getCachedForecast "k" (Except.error "boom" : Except String ℕ) [] 0).2.1)
        5).2.2 = true :=
  ⟨getCachedForecast_error_propagates.1 ℕ String [] "k" "boom" 0 rfl,
    getCachedForecast_error_propagates.2.2 ℕ String [] "k" "boom"
      (Except.ok 7) 0 5 rfl⟩

theorem alertStep_of_not_fires (forecasts : String → Option Forecast)
    (thresholds : String → Option ℚ) (defaultThreshold : Option ℚ) (alertLog : AlertLog)
    (notifThrows : String → Bool) (hasCallback : Bool) (now : ℤ)
    (st : AlertOutcome) (r : Resort)
    (hnf : ¬ alertFires forecasts thresholds defaultThreshold alertLog now r) :
    alertStep forecasts thresholds defaultThreshold alertLog notifThrows hasCallback now
      st r = st := by
  unfold alertStep
  split
  · rfl
  · rename_i fc hf
    split
    · rfl
    · rename_i d ds hn
      rw [if_neg]
      intro hcond
      exact hnf ⟨fc, d, ds, hf, hn, hcond.1, hcond.2⟩

theorem alertStep_of_fires (forecasts : String → Option Forecast)
    (thresholds : String → Option ℚ) (defaultThreshold : Option ℚ) (alertLog : AlertLog)
    (notifThrows : String → Bool) (hasCallback : Bool) (now : ℤ)
    (st : AlertOutcome) (r : Resort)
    (hfires : alertFires forecasts thresholds defaultThreshold alertLog now r) :
    alertStep forecasts thresholds defaultThreshold alertLog notifThrows hasCallback now
        st r =
      { updatedLog := fun k => if k = r.id then some now else st.updatedLog k
        notified := st.notified ++ (if notifThrows r.id then [] else [r.id])
        callbackFired := st.callbackFired ++ (if hasCallback then [r.id] else []) } := by
  obtain ⟨fc, d, ds, hf, hn, h1, h2⟩ := hfires
  unfold alertStep
  split
  · rename_i hf0
    rw [hf0] at hf
    exact absurd hf (by simp)
  · rename_i fc0 hf0
    rw [hf0] at hf
    injection hf with hfeq
    subst hfeq
    split
    · rename_i hn0
      rw [hn0] at hn
      exact absurd hn (by simp)
    · rename_i d0 ds0 hn0
      rw [hn0] at hn
      injection hn with hd hds
      subst hd
      subst hds
      rw [if_pos ⟨h1, h2⟩]

theorem foldl_alertStep_untouched (forecasts : String → Option Forecast)
    (thresholds : String → Option ℚ) (defaultThreshold : Option ℚ) (alertLog : AlertLog)
    (notifThrows : String → Bool) (hasCallback : Bool) (now : ℤ) :
    ∀ (rs : List Resort) (st : AlertOutcome) (k : String),
      k ∉ rs.map Resort.id →
      (rs.foldl (alertStep forecasts thresholds defaultThreshold alertLog notifThrows
          hasCallback now) st).updatedLog k = st.updatedLog k ∧
      (k ∈ (rs.foldl (alertStep forecasts thresholds defaultThreshold alertLog notifThrows
          hasCallback now) st).notified ↔ k ∈ st.notified) ∧
      (k ∈ (rs.foldl (alertStep forecasts thresholds defaultThreshold alertLog notifThrows
          hasCallback now) st).callbackFired ↔ k ∈ st.callbackFired) := by
  intro rs
  induction rs with
  | nil =>
    intro st k _
    exact ⟨rfl, Iff.rfl, Iff.rfl⟩
  | cons a rs ih =>
    intro st k hk
    rw [List.map_cons, List.mem_cons] at hk
    push_neg at hk
    obtain ⟨hka, hkrs⟩ := hk
    rw [List.foldl_cons]
    have hstep : ∀ st' : AlertOutcome,
        st' = alertStep forecasts thresholds defaultThreshold alertLog notifThrows
          hasCallback now st a →
        st'.updatedLog k = st.updatedLog k ∧
        (k ∈ st'.notified ↔ k ∈ st.notified) ∧
        (k ∈ st'.callbackFired ↔ k ∈ st.callbackFired) := by
      intro st' hdef
      by_cases hfires : alertFires forecasts thresholds defaultThreshold alertLog now a
      · rw [alertStep_of_fires forecasts thresholds defaultThreshold alertLog notifThrows
          hasCallback now st a hfires] at hdef
        subst hdef
        refine ⟨?_, ?_, ?_⟩
        · simp [hka]
        · constructor
          · intro hmem
            rcases List.mem_append.mp hmem with hm | hm
            · exact hm
            · exfalso
              rcases hb : notifThrows a.id with _ | _ <;> rw [hb] at hm <;> simp at hm
              exact hka hm
          · intro hmem
            exact List.mem_append_left _ hmem
        · constructor
          · intro hmem
            rcases List.mem_append.mp hmem with hm | hm
            · exact hm
            · exfalso
              rcases hb : hasCallback with _ | _ <;> rw [hb] at hm <;> simp at hm
              exact hka hm
          · intro hmem
            exact List.mem_append_left _ hmem
      · rw [alertStep_of_not_fires forecasts thresholds defaultThreshold alertLog
          notifThrows hasCallback now st a hfires] at hdef
        subst hdef
        exact ⟨rfl, Iff.rfl, Iff.rfl⟩
    obtain ⟨h1, h2, h3⟩ := hstep _ rfl
    obtain ⟨g1, g2, g3⟩ := ih (alertStep forecasts thresholds defaultThreshold alertLog
      notifThrows hasCallback now st a) k hkrs
    exact ⟨g1.trans h1, g2.trans h2, g3.trans h3⟩

theorem alertStep_other (forecasts : String → Option Forecast)
    (thresholds : String → Option ℚ) (defaultThreshold : Option ℚ) (alertLog : AlertLog)
    (notifThrows : String → Bool) (hasCallback : Bool) (now : ℤ)
    (st : AlertOutcome) (a : Resort) (k : String) (hka : k ≠ a.id) :
    (alertStep forecasts thresholds defaultThreshold alertLog notifThrows hasCallback now
        st a).updatedLog k = st.updatedLog k ∧
    (k ∈ (alertStep forecasts thresholds defaultThreshold alertLog notifThrows hasCallback
        now st a).notified ↔ k ∈ st.notified) ∧
    (k ∈ (alertStep forecasts thresholds defaultThreshold alertLog notifThrows hasCallback
        now st a).callbackFired ↔ k ∈ st.callbackFired) := by
  by_cases hfires : alertFires forecasts thresholds defaultThreshold alertLog now a
  · rw [alertStep_of_fires forecasts thresholds defaultThreshold alertLog notifThrows
      hasCallback now st a hfires]
    refine ⟨by simp [hka], ?_, ?_⟩
    · constructor
      · intro hmem
        rcases List.mem_append.mp hmem with hm | hm
        · exact hm
        · exfalso
          rcases hb : notifThrows a.id with _ | _ <;> rw [hb] at hm <;> simp at hm
          exact hka hm
      · exact fun hmem => List.mem_append_left _ hmem
    · constructor
      · intro hmem
        rcases List.mem_append.mp hmem with hm | hm
        · exact hm
        · exfalso
          rcases hb : hasCallback with _ | _ <;> rw [hb] at hm <;> simp at hm
          exact hka hm
      · exact fun hmem => List.mem_append_left _ hmem
  · rw [alertStep_of_not_fires forecasts thresholds defaultThreshold alertLog notifThrows
      hasCallback now st a hfires]
    exact ⟨rfl, Iff.rfl, Iff.rfl⟩

theorem foldl_alertStep_spec (forecasts : String → Option Forecast)
    (thresholds : String → Option ℚ) (defaultThreshold : Option ℚ) (alertLog : AlertLog)
    (notifThrows : String → Bool) (hasCallback : Bool) (now : ℤ) :
    ∀ (rs : List Resort) (st : AlertOutcome) (r : Resort),
      (rs.map Resort.id).Nodup → r ∈ rs →
      (alertFires forecasts thresholds defaultThreshold alertLog now r →
        (rs.foldl (alertStep forecasts thresholds defaultThreshold alertLog notifThrows
            hasCallback now) st).updatedLog r.id = some now ∧
        (notifThrows r.id = false → r.id ∈ (rs.foldl (alertStep forecasts thresholds
            defaultThreshold alertLog notifThrows hasCallback now) st).notified) ∧
        (hasCallback = true → r.id ∈ (rs.foldl (alertStep forecasts thresholds
            defaultThreshold alertLog notifThrows hasCallback now) st).callbackFired)) ∧
      (¬ alertFires forecasts thresholds defaultThreshold alertLog now r →
        (rs.foldl (alertStep forecasts thresholds defaultThreshold alertLog notifThrows
            hasCallback now) st).updatedLog r.id = st.updatedLog r.id ∧
        (r.id ∈ (rs.foldl (alertStep forecasts thresholds defaultThreshold alertLog
            notifThrows hasCallback now) st).notified ↔ r.id ∈ st.notified) ∧
        (r.id ∈ (rs.foldl (alertStep forecasts thresholds defaultThreshold alertLog
            notifThrows hasCallback now) st).callbackFired ↔
          r.id ∈ st.callbackFired)) := by
  intro rs
  induction rs with
  | nil =>
    intro st r _ hmem
    exact absurd hmem (List.not_mem_nil r)
  | cons a rs ih =>
    intro st r hnd hmem
    rw [List.map_cons, List.nodup_cons] at hnd
    obtain ⟨haid, hndrs⟩ := hnd
    rw [List.foldl_cons]
    rcases List.mem_cons.mp hmem with hra | hrrs
    · -- r is the head: settle it at this step, the remaining resorts leave it alone
      subst hra
      obtain ⟨hu1, hu2, hu3⟩ := foldl_alertStep_untouched forecasts thresholds
        defaultThreshold alertLog notifThrows hasCallback now rs
        (alertStep forecasts thresholds defaultThreshold alertLog notifThrows hasCallback
          now st r) r.id haid
      constructor
      · intro hfires
        rw [alertStep_of_fires forecasts thresholds defaultThreshold alertLog notifThrows
          hasCallback now st r hfires] at hu1 hu2 hu3 ⊢
        refine ⟨by rw [hu1]; simp, ?_, ?_⟩
        · intro hnt
          rw [hu2, hnt]
          simp
        · intro hcb
          rw [hu3, hcb]
          simp
      · intro hnf
        rw [alertStep_of_not_fires forecasts thresholds defaultThreshold alertLog
          notifThrows hasCallback now st r hnf] at hu1 hu2 hu3 ⊢
        exact ⟨hu1, hu2, hu3⟩
    · -- r is further down the list
      have hrid : r.id ≠ a.id := by
        intro hc
        exact haid (hc ▸ List.mem_map_of_mem Resort.id hrrs)
      obtain ⟨ho1, ho2, ho3⟩ := alertStep_other forecasts thresholds defaultThreshold
        alertLog notifThrows hasCallback now st a r.id hrid
      obtain ⟨ih1, ih2⟩ := ih (alertStep forecasts thresholds defaultThreshold alertLog
        notifThrows hasCallback now st a) r hndrs hrrs
      refine ⟨ih1, ?_⟩
      intro hnf
      obtain ⟨g1, g2, g3⟩ := ih2 hnf
      exact ⟨g1.trans ho1, g2.trans ho2, g3.trans ho3⟩

/-- C2: for a location in the evaluation set, a notification fires and its
log entry becomes `now` exactly when `max(dailySnowfall[0], dailySnowfall[1])
≥ threshold` (per-location override, else default) and `now − lastFired >
6 h` (`lastFired = 0` when absent); a location with no cached forecast is
skipped untouched. With snowfall `[20, 0]` and threshold 15.24: lastFired =
now − 1000 ms fires nothing and leaves the entry; lastFired = now − 7 h
fires and stamps the entry with now; an override of 25.4 prevents firing. -/
theorem checkPowderAlerts_threshold_cooldown :
    (∀ (resorts : List Resort) (forecasts : String → Option Forecast)
        (thresholds : String → Option ℚ) (defaultThreshold : Option ℚ)
        (alertLog : AlertLog) (notifThrows : String → Bool) (hasCallback : Bool)
        (now : ℤ) (r : Resort),
      (resorts.map Resort.id).Nodup → r ∈ resorts →
      (alertFires forecasts thresholds defaultThreshold alertLog now r →
        (checkPowderAlerts true resorts forecasts thresholds defaultThreshold alertLog
            notifThrows hasCallback now).updatedLog r.id = some now ∧
        (notifThrows r.id = false → r.id ∈ (checkPowderAlerts true resorts forecasts
            thresholds defaultThreshold alertLog notifThrows hasCallback now).notified) ∧
        (hasCallback = true → r.id ∈ (checkPowderAlerts true resorts forecasts thresholds
            defaultThreshold alertLog notifThrows hasCallback now).callbackFired)) ∧
      (¬ alertFires forecasts thresholds defaultThreshold alertLog now r →
        (checkPowderAlerts true resorts forecasts thresholds defaultThreshold alertLog
            notifThrows hasCallback now).updatedLog r.id = alertLog r.id ∧
        r.id ∉ (checkPowderAlerts true resorts forecasts thresholds defaultThreshold
            alertLog notifThrows hasCallback now).notified ∧
        r.id ∉ (checkPowderAlerts true resorts forecasts thresholds defaultThreshold
            alertLog notifThrows hasCallback now).callbackFired) ∧
      (forecasts r.id = none →
        (checkPowderAlerts true resorts forecasts thresholds defaultThreshold alertLog
            notifThrows hasCallback now).updatedLog r.id = alertLog r.id ∧
        r.id ∉ (checkPowderAlerts true resorts forecasts thresholds defaultThreshold
            alertLog notifThrows hasCallback now).notified)) ∧
    ((checkPowderAlerts true [r1] fcs1 thrNone (some (mkRat 1524 100)) logRecent noThrow
        true tnow).notified = [] ∧
      (checkPowderAlerts true [r1] fcs1 thrNone (some (mkRat 1524 100)) logRecent noThrow
        true tnow).updatedLog "r1" = some (tnow - 1000)) ∧
    ((checkPowderAlerts true [r1] fcs1 thrNone (some (mkRat 1524 100)) logStale noThrow
        true tnow).notified = ["r1"] ∧
      (checkPowderAlerts true [r1] fcs1 thrNone (some (mkRat 1524 100)) logStale noThrow
        true tnow).updatedLog "r1" = some tnow) ∧
    ((checkPowderAlerts true [r1] fcs1 thrOverride (some (mkRat 1524 100)) logEmpty
        noThrow true tnow).notified = [] ∧
      (checkPowderAlerts true [r1] fcs1 thrOverride (some (mkRat 1524 100)) logEmpty
        noThrow true tnow).updatedLog "r1" = none) := by
  refine ⟨?_, by decide, by decide, by decide⟩
  intro resorts forecasts thresholds defaultThreshold alertLog notifThrows hasCallback
    now r hnd hmem
  have hdef : checkPowderAlerts true resorts forecasts thresholds defaultThreshold
      alertLog notifThrows hasCallback now =
      resorts.foldl (alertStep forecasts thresholds defaultThreshold alertLog notifThrows
        hasCallback now) ⟨alertLog, [], []⟩ := rfl
  rw [hdef]
  obtain ⟨h1, h2⟩ := foldl_alertStep_spec forecasts thresholds defaultThreshold alertLog
    notifThrows hasCallback now resorts ⟨alertLog, [], []⟩ r hnd hmem
  have hnotfires : ¬ alertFires forecasts thresholds defaultThreshold alertLog now r →
      (resorts.foldl (alertStep forecasts thresholds defaultThreshold alertLog notifThrows
          hasCallback now) ⟨alertLog, [], []⟩).updatedLog r.id = alertLog r.id ∧
      r.id ∉ (resorts.foldl (alertStep forecasts thresholds defaultThreshold alertLog
          notifThrows hasCallback now) ⟨alertLog, [], []⟩).notified ∧
      r.id ∉ (resorts.foldl (alertStep forecasts thresholds defaultThreshold alertLog
          notifThrows hasCallback now) ⟨alertLog, [], []⟩).callbackFired := by
    intro hnf
    obtain ⟨g1, g2, g3⟩ := h2 hnf
    refine ⟨g1, ?_, ?_⟩
    · intro hc
      exact List.not_mem_nil r.id (g2.mp hc)
    · intro hc
      exact List.not_mem_nil r.id (g3.mp hc)
  refine ⟨h1, hnotfires, ?_⟩
  intro hnofc
  have hnf : ¬ alertFires forecasts thresholds defaultThreshold alertLog now r := by
    rintro ⟨fc, d, ds, hf, _⟩
    rw [hnofc] at hf
    exact absurd hf (by simp)
  obtain ⟨g1, g2, _⟩ := hnotfires hnf
  exact ⟨g1, g2⟩

/-- Witness for C2: the general characterization applied to the cooldown-
elapsed scenario fires and stamps the log entry with now. -/
theorem checkPowderAlerts_threshold_cooldown_witness :
    (checkPowderAlerts true [r1] fcs1 thrNone (some (mkRat 1524 100)) logStale noThrow
        true tnow).updatedLog "r1" = some tnow :=
  ((checkPowderAlerts_threshold_cooldown.1 [r1] fcs1 thrNone (some (mkRat 1524 100))
      logStale noThrow true tnow r1 (by decide) (by decide)).1
    ⟨fc20, 20, [0], rfl, rfl, by decide, by decide⟩).1

theorem alertStep_frame (forecasts : String → Option Forecast)
    (thresholds : String → Option ℚ) (defaultThreshold : Option ℚ) (alertLog : AlertLog)
    (notifThrows : String → Bool) (hasCallback : Bool) (now : ℤ)
    (st : AlertOutcome) (a : Resort) (k : String) :
    (alertStep forecasts thresholds defaultThreshold alertLog notifThrows hasCallback now
        st a).updatedLog k = st.updatedLog k ∨
    (alertStep forecasts thresholds defaultThreshold alertLog notifThrows hasCallback now
        st a).updatedLog k = some now := by
  by_cases hfires : alertFires forecasts thresholds defaultThreshold alertLog now a
  · rw [alertStep_of_fires forecasts thresholds defaultThreshold alertLog notifThrows
      hasCallback now st a hfires]
    by_cases hk : k = a.id
    · exact Or.inr (by simp [hk])
    · exact Or.inl (by simp [hk])
  · rw [alertStep_of_not_fires forecasts thresholds defaultThreshold alertLog notifThrows
      hasCallback now st a hfires]
    exact Or.inl rfl

theorem foldl_alertStep_frame (forecasts : String → Option Forecast)
    (thresholds : String → Option ℚ) (defaultThreshold : Option ℚ) (alertLog : AlertLog)
    (notifThrows : String → Bool) (hasCallback : Bool) (now : ℤ) :
    ∀ (rs : List Resort) (st : AlertOutcome) (k : String),
      (rs.foldl (alertStep forecasts thresholds defaultThreshold alertLog notifThrows
          hasCallback now) st).updatedLog k = st.updatedLog k ∨
      (rs.foldl (alertStep forecasts thresholds defaultThreshold alertLog notifThrows
          hasCallback now) st).updatedLog k = some now := by
  intro rs
  induction rs with
  | nil =>
    intro st k
    exact Or.inl rfl
  | cons a rs ih =>
    intro st k
    rw [List.foldl_cons]
    rcases ih (alertStep forecasts thresholds defaultThreshold alertLog notifThrows
      hasCallback now st a) k with hc | hc
    · rw [hc]
      exact alertStep_frame forecasts thresholds defaultThreshold alertLog notifThrows
        hasCallback now st a k
    · exact Or.inr hc

/-- C8: the returned log equals the input log with only qualifying entries
restamped to now — every key is either unchanged or set to now, entries are
never removed (keys outside the evaluation set included), and when
permission is not granted the call is a no-op returning the input log. -/
theorem checkPowderAlerts_log_frame :
    (∀ (resorts : List Resort) (forecasts : String → Option Forecast)
        (thresholds : String → Option ℚ) (defaultThreshold : Option ℚ)
        (alertLog : AlertLog) (notifThrows : String → Bool) (hasCallback : Bool)
        (now : ℤ) (k : String),
      (checkPowderAlerts true resorts forecasts thresholds defaultThreshold alertLog
          notifThrows hasCallback now).updatedLog k = alertLog k ∨
      (checkPowderAlerts true resorts forecasts thresholds defaultThreshold alertLog
          notifThrows hasCallback now).updatedLog k = some now) ∧
    (∀ (resorts : List Resort) (forecasts : String → Option Forecast)
        (thresholds : String → Option ℚ) (defaultThreshold : Option ℚ)
        (alertLog : AlertLog) (notifThrows : String → Bool) (hasCallback : Bool)
        (now : ℤ) (k : String) (t : ℤ),
      alertLog k = some t →
      ∃ u, (checkPowderAlerts true resorts forecasts thresholds defaultThreshold alertLog
          notifThrows hasCallback now).updatedLog k = some u) ∧
    (∀ (resorts : List Resort) (forecasts : String → Option Forecast)
        (thresholds : String → Option ℚ) (defaultThreshold : Option ℚ)
        (alertLog : AlertLog) (notifThrows : String → Bool) (hasCallback : Bool)
        (now : ℤ) (k : String),
      k ∉ resorts.map Resort.id →
      (checkPowderAlerts true resorts forecasts thresholds defaultThreshold alertLog
          notifThrows hasCallback now).updatedLog k = alertLog k) ∧
    (∀ (resorts : List Resort) (forecasts : String → Option Forecast)
        (thresholds : String → Option ℚ) (defaultThreshold : Option ℚ)
        (alertLog : AlertLog) (notifThrows : String → Bool) (hasCallback : Bool)
        (now : ℤ),
      checkPowderAlerts false resorts forecasts thresholds defaultThreshold alertLog
        notifThrows hasCallback now = ⟨alertLog, [], []⟩) := by
  have hframe : ∀ (resorts : List Resort) (forecasts : String → Option Forecast)
      (thresholds : String → Option ℚ) (defaultThreshold : Option ℚ)
      (alertLog : AlertLog) (notifThrows : String → Bool) (hasCallback : Bool)
      (now : ℤ) (k : String),
      (checkPowderAlerts true resorts forecasts thresholds defaultThreshold alertLog
          notifThrows hasCallback now).updatedLog k = alertLog k ∨
      (checkPowderAlerts true resorts forecasts thresholds defaultThreshold alertLog
          notifThrows hasCallback now).updatedLog k = some now := by
    intro resorts forecasts thresholds defaultThreshold alertLog notifThrows hasCallback
      now k
    exact foldl_alertStep_frame forecasts thresholds defaultThreshold alertLog
      notifThrows hasCallback now resorts ⟨alertLog, [], []⟩ k
  refine ⟨hframe, ?_, ?_, ?_⟩
  · intro resorts forecasts thresholds defaultThreshold alertLog notifThrows hasCallback
      now k t ht
    rcases hframe resorts forecasts thresholds defaultThreshold alertLog notifThrows
      hasCallback now k with hc | hc
    · exact ⟨t, by rw [hc, ht]⟩
    · exact ⟨now, hc⟩
  · intro resorts forecasts thresholds defaultThreshold alertLog notifThrows hasCallback
      now k hk
    exact (foldl_alertStep_untouched forecasts thresholds defaultThreshold alertLog
      notifThrows hasCallback now resorts ⟨alertLog, [], []⟩ k hk).1
  · intro resorts forecasts thresholds defaultThreshold alertLog notifThrows hasCallback
      now
    rfl

/-- Witness for C8: an entry for a location outside the evaluation set is
preserved verbatim. -/
theorem checkPowderAlerts_log_frame_witness :
    (checkPowderAlerts true [r1] fcs1 thrNone (some (mkRat 1524 100)) logRecent noThrow
        true tnow).updatedLog "someOtherResort" = logRecent "someOtherResort" :=
  checkPowderAlerts_log_frame.2.2.1 [r1] fcs1 thrNone (some (mkRat 1524 100)) logRecent
    noThrow true tnow "someOtherResort" (by decide)

theorem foldl_alertStep_notifThrows_irrelevant (forecasts : String → Option Forecast)
    (thresholds : String → Option ℚ) (defaultThreshold : Option ℚ) (alertLog : AlertLog)
    (hasCallback : Bool) (now : ℤ) (nt nt' : String → Bool) :
    ∀ (rs : List Resort) (st st' : AlertOutcome),
      st.updatedLog = st'.updatedLog → st.callbackFired = st'.callbackFired →
      (rs.foldl (alertStep forecasts thresholds defaultThreshold alertLog nt hasCallback
          now) st).updatedLog =
        (rs.foldl (alertStep forecasts thresholds defaultThreshold alertLog nt'
          hasCallback now) st').updatedLog ∧
      (rs.foldl (alertStep forecasts thresholds defaultThreshold alertLog nt hasCallback
          now) st).callbackFired =
        (rs.foldl (alertStep forecasts thresholds defaultThreshold alertLog nt'
          hasCallback now) st').callbackFired := by
  intro rs
  induction rs with
  | nil =>
    intro st st' hlog hcb
    exact ⟨hlog, hcb⟩
  | cons a rs ih =>
    intro st st' hlog hcb
    rw [List.foldl_cons, List.foldl_cons]
    apply ih
    · by_cases hfires : alertFires forecasts thresholds defaultThreshold alertLog now a
      · rw [alertStep_of_fires forecasts thresholds defaultThreshold alertLog nt
          hasCallback now st a hfires,
          alertStep_of_fires forecasts thresholds defaultThreshold alertLog nt'
          hasCallback now st' a hfires]
        funext k
        simp only []
        rw [hlog]
      · rw [alertStep_of_not_fires forecasts thresholds defaultThreshold alertLog nt
          hasCallback now st a hfires,
          alertStep_of_not_fires forecasts thresholds defaultThreshold alertLog nt'
          hasCallback now st' a hfires]
        exact hlog
    · by_cases hfires : alertFires forecasts thresholds defaultThreshold alertLog now a
      · rw [alertStep_of_fires forecasts thresholds defaultThreshold alertLog nt
          hasCallback now st a hfires,
          alertStep_of_fires forecasts thresholds defaultThreshold alertLog nt'
          hasCallback now st' a hfires]
        simp only []
        rw [hcb]
      · rw [alertStep_of_not_fires forecasts thresholds defaultThreshold alertLog nt
          hasCallback now st a hfires,
          alertStep_of_not_fires forecasts thresholds defaultThreshold alertLog nt'
          hasCallback now st' a hfires]
        exact hcb

/-- C10: a throwing `Notification` constructor is caught per resort — the
returned log and the `onAlertFired` invocations are identical to a run where
the constructor never throws, and later locations are still evaluated. In
the concrete two-resort run where both qualify and the constructor throws
for `r1` only, `r1` gets no notification but both log entries are stamped
with now, both callbacks run, and `r2` is still notified. -/
theorem checkPowderAlerts_notifThrows_caught :
    (∀ (granted : Bool) (resorts : List Resort) (forecasts : String → Option Forecast)
        (thresholds : String → Option ℚ) (defaultThreshold : Option ℚ)
        (alertLog : AlertLog) (nt nt' : String → Bool) (hasCallback : Bool) (now : ℤ),
      (checkPowderAlerts granted resorts forecasts thresholds defaultThreshold alertLog
          nt hasCallback now).updatedLog =
        (checkPowderAlerts granted resorts forecasts thresholds defaultThreshold alertLog
          nt' hasCallback now).updatedLog ∧
      (checkPowderAlerts granted resorts forecasts thresholds defaultThreshold alertLog
          nt hasCallback now).callbackFired =
        (checkPowderAlerts granted resorts forecasts thresholds defaultThreshold alertLog
          nt' hasCallback now).callbackFired) ∧
    ((checkPowderAlerts true [r1, r2] fcs12 thrNone (some (mkRat 1524 100)) logEmpty
        (fun id => id == "r1") true tnow).updatedLog "r1" = some tnow ∧
      (checkPowderAlerts true [r1, r2] fcs12 thrNone (some (mkRat 1524 100)) logEmpty
        (fun id => id == "r1") true tnow).updatedLog "r2" = some tnow ∧
      (checkPowderAlerts true [r1, r2] fcs12 thrNone (some (mkRat 1524 100)) logEmpty
        (fun id => id == "r1") true tnow).notified = ["r2"] ∧
      (checkPowderAlerts true [r1, r2] fcs12 thrNone (some (mkRat 1524 100)) logEmpty
        (fun id => id == "r1") true tnow).callbackFired = ["r1", "r2"]) := by
  refine ⟨?_, by decide, by decide, by decide, by decide⟩
  intro granted resorts forecasts thresholds defaultThreshold alertLog nt nt' hasCallback
    now
  cases granted with
  | false => exact ⟨rfl, rfl⟩
  | true =>
    exact foldl_alertStep_notifThrows_irrelevant forecasts thresholds defaultThreshold
      alertLog hasCallback now nt nt' resorts ⟨alertLog, [], []⟩ ⟨alertLog, [], []⟩
      rfl rfl

theorem batchLoop_nil : batchLoop [] = [] := by
  rw [batchLoop]
  simp

theorem batchLoop_cons_of_ne (l : List Resort) (h : l ≠ []) :
    batchLoop l =
      (l.take BATCH_SIZE, decide (BATCH_SIZE < l.length)) ::
        batchLoop (l.drop BATCH_SIZE) := by
  rw [batchLoop]
  simp [h]

theorem batchLoop_join (l : List Resort) :
    (batchLoop l).foldr (fun b acc => b.1 ++ acc) [] = l := by
  suffices hgen : ∀ (n : ℕ) (l : List Resort), l.length = n →
      (batchLoop l).foldr (fun b acc => b.1 ++ acc) [] = l from hgen l.length l rfl
  intro n
  induction n using Nat.strong_induction_on with
  | _ n ih =>
    intro l hn
    by_cases hl : l = []
    · subst hl
      rw [batchLoop_nil]
      rfl
    · rw [batchLoop_cons_of_ne l hl]
      rw [List.foldr_cons]
      have hlen : (l.drop BATCH_SIZE).length < n := by
        rw [← hn, List.length_drop]
        have : 0 < l.length := List.length_pos.mpr hl
        simp only [BATCH_SIZE]
        omega
      rw [ih (l.drop BATCH_SIZE).length hlen (l.drop BATCH_SIZE) rfl]
      exact List.take_append_drop BATCH_SIZE l

/-- C7: over 25 tier-1 locations the loader produces batches of sizes
10, 10, 5 with a pacing delay after each of the first two batches and none
after the last (2 delays); the union of the batches is exactly the tier-1
set; every location's status trace starts with `loading` and ends in `done`
(with the data delivered) exactly when its fetch succeeds and in `error`
when it fails; and a location's outcome depends only on its own fetch while
the batch structure depends on no fetch at all, so one failure cannot abort
the cycle. -/
theorem loadTier1Forecasts_batches :
    (∀ (ε α : Type) (resorts : List Resort) (fetch : String → Except ε α),
      (resorts.filter (fun r => r.tier == 1)).length = 25 →
      (loadTier1Forecasts resorts fetch).batches.map (fun b => b.1.length) =
        [10, 10, 5] ∧
      (loadTier1Forecasts resorts fetch).batches.map Prod.snd =
        [true, true, false] ∧
      ((loadTier1Forecasts resorts fetch).batches.map Prod.snd).count true = 2) ∧
    (∀ (ε α : Type) (resorts : List Resort) (fetch : String → Except ε α),
      (loadTier1Forecasts resorts fetch).batches.foldr (fun b acc => b.1 ++ acc) [] =
        resorts.filter (fun r => r.tier == 1)) ∧
    (∀ (ε α : Type) (resorts : List Resort) (fetch : String → Except ε α) (r : Resort),
      ((loadTier1Forecasts resorts fetch).perResort r).1.head? =
        some LoadStatus.loading ∧
      (((loadTier1Forecasts resorts fetch).perResort r).1.getLast? =
          some LoadStatus.done ∨
        ((loadTier1Forecasts resorts fetch).perResort r).1.getLast? =
          some LoadStatus.error) ∧
      (∀ d, fetch r.id = Except.ok d →
        (loadTier1Forecasts resorts fetch).perResort r =
          ([LoadStatus.loading, LoadStatus.done], some d)) ∧
      (∀ e, fetch r.id = Except.error e →
        (loadTier1Forecasts resorts fetch).perResort r =
          ([LoadStatus.loading, LoadStatus.error], none))) ∧
    (∀ (ε α : Type) (resorts : List Resort) (fetch fetch' : String → Except ε α)
        (r : Resort),
      fetch r.id = fetch' r.id →
      (loadTier1Forecasts resorts fetch).perResort r =
        (loadTier1Forecasts resorts fetch').perResort r) ∧
    (∀ (ε α : Type) (resorts : List Resort) (fetch fetch' : String → Except ε α),
      (loadTier1Forecasts resorts fetch).batches =
        (loadTier1Forecasts resorts fetch').batches) := by
  refine ⟨?_, ?_, ?_, ?_, ?_⟩
  · intro ε α resorts fetch hlen25
    have ht : (resorts.filter (fun r => r.tier == 1)).length = 25 := hlen25
    set t := resorts.filter (fun r => r.tier == 1) with htdef
    have h1 : t ≠ [] := by
      intro hc
      rw [hc] at ht
      simp at ht
    have ht2 : (t.drop BATCH_SIZE).length = 15 := by
      rw [List.length_drop, ht]
      decide
    have ht3 : ((t.drop BATCH_SIZE).drop BATCH_SIZE).length = 5 := by
      rw [List.length_drop, ht2]
      decide
    have h2 : t.drop BATCH_SIZE ≠ [] := by
      intro hc
      rw [hc] at ht2
      simp at ht2
    have h3 : (t.drop BATCH_SIZE).drop BATCH_SIZE ≠ [] := by
      intro hc
      rw [hc] at ht3
      simp at ht3
    have h4 : ((t.drop BATCH_SIZE).drop BATCH_SIZE).drop BATCH_SIZE = [] := by
      apply List.eq_nil_of_length_eq_zero
      rw [List.length_drop, ht3]
      decide
    have hd1 : decide (BATCH_SIZE < t.length) = true := by rw [ht]; rfl
    have hd2 : decide (BATCH_SIZE < (t.drop BATCH_SIZE).length) = true := by
      rw [ht2]; rfl
    have hd3 : decide (BATCH_SIZE < ((t.drop BATCH_SIZE).drop BATCH_SIZE).length) =
        false := by
      rw [ht3]; rfl
    have hl1 : (t.take BATCH_SIZE).length = 10 := by
      rw [List.length_take, ht]
      decide
    have hl2 : ((t.drop BATCH_SIZE).take BATCH_SIZE).length = 10 := by
      rw [List.length_take, ht2]
      decide
    have hl3 : (((t.drop BATCH_SIZE).drop BATCH_SIZE).take BATCH_SIZE).length = 5 := by
      rw [List.length_take, ht3]
      decide
    have hbatches : (loadTier1Forecasts resorts fetch).batches =
        [(t.take BATCH_SIZE, true),
          ((t.drop BATCH_SIZE).take BATCH_SIZE, true),
          (((t.drop BATCH_SIZE).drop BATCH_SIZE).take BATCH_SIZE, false)] := by
      show batchLoop t = _
      rw [batchLoop_cons_of_ne t h1, batchLoop_cons_of_ne _ h2,
        batchLoop_cons_of_ne _ h3, h4, batchLoop_nil, hd1, hd2, hd3]
    rw [hbatches]
    refine ⟨?_, rfl, rfl⟩
    simp only [List.map_cons, List.map_nil, hl1, hl2, hl3]
  · intro ε α resorts fetch
    exact batchLoop_join (resorts.filter (fun r => r.tier == 1))
  · intro ε α resorts fetch r
    refine ⟨?_, ?_, ?_, ?_⟩
    · cases hf : fetch r.id <;> simp [loadTier1Forecasts, loadSingleForecast, hf]
    · cases hf : fetch r.id <;> simp [loadTier1Forecasts, loadSingleForecast, hf]
    · intro d hd
      simp [loadTier1Forecasts, loadSingleForecast, hd]
    · intro e he
      simp [loadTier1Forecasts, loadSingleForecast, he]
  · intro ε α resorts fetch fetch' r hsame
    show loadSingleForecast (fetch r.id) = loadSingleForecast (fetch' r.id)
    rw [hsame]
  · intro ε α resorts fetch fetch'
    rfl

/-- Witness for C7: 25 concrete tier-1 locations batch as 10, 10, 5 with
delay flags true, true, false. -/
theorem loadTier1Forecasts_batches_witness :
    (loadTier1Forecasts (List.replicate 25 r1)
        (fun _ => (Except.ok 0 : Except Unit ℕ))).batches.map
      (fun b => b.1.length) = [10, 10, 5] ∧
    (loadTier1Forecasts (List.replicate 25 r1)
        (fun _ => (Except.ok 0 : Except Unit ℕ))).batches.map Prod.snd =
      [true, true, false] :=
  ⟨(loadTier1Forecasts_batches.1 Unit ℕ (List.replicate 25 r1)
      (fun _ => Except.ok 0) (by decide)).1,
    (loadTier1Forecasts_batches.1 Unit ℕ (List.replicate 25 r1)
      (fun _ => Except.ok 0) (by decide)).2.1⟩

/-- Counterexample to C6 as stated: an entry whose `snowfall_sum` is absent
is *not* scored as if the field were 0 — `undefined * 3` is `NaN`, so the
score is `NaN` (`none`), while the as-if-0 entry scores 0. -/
theorem getBestWindow_missing_snowfall_not_zero :
    getBestWindow [⟨"d1", none, some 0, some 0, some 5⟩] =
      some ⟨0, "d1", none⟩ ∧
    getBestWindow [⟨"d1", some 0, some 0, some 0, some 5⟩] =
      some ⟨0, "d1", some 0⟩ ∧
    getBestWindow [⟨"d1", none, some 0, some 0, some 5⟩] ≠
      getBestWindow [⟨"d1", some 0, some 0, some 0, some 5⟩] := by
  have h1 : getBestWindow [⟨"d1", none, some 0, some 0, some 5⟩] =
      some ⟨0, "d1", none⟩ := by
    norm_num [getBestWindow, scoredFrom, sortDesc, insertDesc, bwBefore, bwScore,
      jsLT, jsMul, jsSub, jsAdd, jsGT]
  have h2 : getBestWindow [⟨"d1", some 0, some 0, some 0, some 5⟩] =
      some ⟨0, "d1", some 0⟩ := by
    norm_num [getBestWindow, scoredFrom, sortDesc, insertDesc, bwBefore, bwScore,
      jsLT, jsMul, jsSub, jsAdd, jsGT]
  refine ⟨h1, h2, ?_⟩
  rw [h1, h2]
  simp

/-- C6 (amended): the three pure functions are total — `getSnowQuality`
always yields one of the seven labels and `getSnowAgeHours` a value in
`[0, 72]` — and `getBestWindow` treats an absent `windspeed_10m_max` or
`temperature_2m_max` exactly as 0; but an absent `snowfall_sum` or
`rain_sum` propagates `NaN` into the score (the `?? 0` substitution happens
at the call sites, not inside `getBestWindow`). -/
theorem pure_functions_total_missing_fields :
    (∀ p : SnowInput, (getSnowQuality p).label ∈
      ["Powder", "Wind Affected", "Packed Powder", "Soft", "Spring/Corn", "Icy",
        "Variable"]) ∧
    (∀ (hs : List ℚ) (idx : ℕ), getSnowAgeHours hs idx ≤ 72) ∧
    (∀ d : DailyEntry, (d.snowfall_sum).isSome = true → (d.rain_sum).isSome = true →
      bwScore d = some (scoreQ d)) ∧
    (∀ d : DailyEntry, d.snowfall_sum = none → bwScore d = none) ∧
    (∀ d : DailyEntry, d.rain_sum = none → bwScore d = none) := by
  refine ⟨?_, fun hs idx => snowAgeLoop_le hs idx idx,
    fun d hs hr => bwScore_eq_scoreQ d hs hr, ?_, ?_⟩
  · intro p
    unfold getSnowQuality
    split_ifs <;> simp
  · intro d hnone
    simp [bwScore, hnone, jsMul, jsSub, jsAdd]
  · intro d hnone
    cases hs : d.snowfall_sum <;>
      simp [bwScore, hnone, hs, jsMul, jsSub, jsAdd]

/-- Witness for the amended C6: a concrete entry with both comparison
fields absent scores exactly as its as-if-0 counterpart, via the third
conjunct. -/
theorem pure_functions_total_missing_fields_witness :
    bwScore ⟨"w", some 2, some 1, none, none⟩ =
      some (scoreQ ⟨"w", some 2, some 1, none, none⟩) ∧
    scoreQ ⟨"w", some 2, some 1, none, none⟩ = 1 :=
  ⟨pure_functions_total_missing_fields.2.2.1 ⟨"w", some 2, some 1, none, none⟩ rfl rfl,
    by norm_num [scoreQ]⟩
